import Mathlib

/-!
Verification development for the vrctl protocol engine and
firmware-upgrade subsystem (src/util.c, src/vrctl.c).

The C code is shallowly embedded: byte streams become `List Nat`,
C strings become `List Char` (NUL-free; reading past the end yields
the NUL character, matching a NUL-terminated buffer), fatal `die`
paths become `Except` errors, and the serial device is modelled as
an explicit list of the lines (or bytes) it produces, consumed in
order.  Partial `write(2)` transfers are modelled by an explicit
schedule of per-call accepted byte counts.
-/

deriving instance DecidableEq for Except

namespace Vrctl

/-! ## Byte/line transport (src/util.c) -/

/-- Embedding of `write_loop` (src/util.c:223-232).  `sched` lists the
number of bytes each successive `write(2)` call accepts; a call never
transfers more than the remaining length.  A schedule entry of `0`
models `write` returning `<= 0`, which the C code turns into a fatal
error (`none`); an exhausted schedule with bytes still pending is also
`none`.  On success the result is the full transmitted byte sequence
paired with the unused part of the schedule. -/
def write_loop : List Nat → List Nat → Option (List Nat × List Nat)
  | [], sched => some ([], sched)
  | _ :: _, [] => none
  | l@(_ :: _), k :: sched2 =>
    if k = 0 then none
    else
      match write_loop (l.drop (min k l.length)) sched2 with
      | none => none
      | some (rest, sched3) => some (l.take (min k l.length) ++ rest, sched3)
  termination_by structural _ sched => sched

/-- Embedding of `write_line` (src/util.c:234-242).  The C code sets
`char eol[] = "\r"` (a two-byte array holding CR and the string
terminator) and calls `write_loop(fd, eol, 2)`, so after the text it
transmits the two bytes 0x0D 0x00. -/
def write_line (text : List Nat) (sched : List Nat) : Option (List Nat) :=
  match write_loop text sched with
  | none => none
  | some (a, sched2) =>
    match write_loop [13, 0] sched2 with
    | none => none
    | some (b, _) => some (a ++ b)

theorem write_loop_eq (buf : List Nat) (sched : List Nat) (t : List Nat)
    (s2 : List Nat) (h : write_loop buf sched = some (t, s2)) : t = buf := by
  induction sched generalizing buf t s2 with
  | nil =>
    cases buf with
    | nil => simp [write_loop] at h; simp [h.1]
    | cons c cs => simp [write_loop] at h
  | cons k sched ih =>
    cases buf with
    | nil => simp [write_loop] at h; simp [h.1]
    | cons c cs =>
      rw [write_loop] at h
      by_cases hk : k = 0
      · simp [hk] at h
      · rw [if_neg hk] at h
        rcases h2 : write_loop ((c :: cs).drop (min k (c :: cs).length)) sched with _ | ⟨rest, s3⟩
        · rw [h2] at h; simp at h
        · rw [h2] at h
          simp at h
          have := ih _ _ _ h2
          rw [← h.1, this]
          simp

/-! ## read_line (src/util.c:244-279), instrumented with its stores -/

/-- Result discriminator for `read_line`: a completed line of `len`
characters, `-ETIMEDOUT`, or `-ENOSPC` (buffer full). -/
inductive ReadResult where
  | ok (len : Nat)
  | timedOut
  | overflow
  deriving DecidableEq

/-- Embedding of the `read_line` loop (src/util.c:244-279), instrumented:
alongside the result it returns every store `(index, byte)` the function
performs into `buf`, including each terminating NUL.  The input stream is
the list of bytes the device delivers; an exhausted stream models the
`select` timeout.  CR/LF bytes terminate a non-empty line (storing NUL at
the current length) and are skipped while the line is empty; when `len`
reaches `maxlen` the code stores the NUL terminator at index `len` and
returns `-ENOSPC`. -/
def read_line_go (maxlen : Nat) : List Nat → Nat → List (Nat × Nat) × ReadResult
  | input, len =>
    if len < maxlen then
      match input with
      | [] => ([], .timedOut)
      | c :: rest =>
        if c = 13 ∨ c = 10 then
          if len ≠ 0 then ([(len, 0)], .ok len)
          else read_line_go maxlen rest len
        else
          let p := read_line_go maxlen rest (len + 1)
          ((len, c) :: p.1, p.2)
    else ([(len, 0)], .overflow)

/-- `read_line` entered with an empty buffer (`len = 0`), as every caller
does. -/
def read_line (input : List Nat) (maxlen : Nat) : List (Nat × Nat) × ReadResult :=
  read_line_go maxlen input 0

/-! ## Terminator stripping in the upgrade loops
(src/vrctl.c:912-921 and src/vrctl.c:1081-1087) -/

/-- Embedding of `index(buf, c)` (first occurrence of `c`, or NULL). -/
def cIndex (c : Char) : List Char → Option Nat
  | [] => none
  | x :: xs => if x = c then some 0 else (cIndex c xs).map (fun n => n + 1)

/-- One terminator-stripping step of the upgrade loops:
`newline = index(buf, c); if (*newline) *newline = 0;`.
When `index` finds `c` the line is truncated there; when it returns
NULL the unguarded `*newline` dereference has no defined value, which
the embedding surfaces as `none`. -/
def strip_char (c : Char) (s : List Char) : Option (List Char) :=
  match cIndex c s with
  | none => none
  | some i => some (s.take i)

/-- The full terminator strip performed on each firmware line by both
`upgrade_zensys` (src/vrctl.c:912-921) and `upgrade_st`
(src/vrctl.c:1081-1087): first strip at `'\n'`, then at `'\r'`;
`none` marks the reachable NULL dereference. -/
def strip_line (s : List Char) : Option (List Char) :=
  match strip_char '\n' s with
  | none => none
  | some t => strip_char '\r' t

/-! ## Response parser (src/vrctl.c:440-526) -/

/-- The NUL character, i.e. the C string terminator. -/
def nulChar : Char := Char.ofNat 0

/-- Reading `buf[i]` from a NUL-terminated C string: past the end of the
stored characters the terminator (NUL) is read. -/
def cAt (s : List Char) (i : Nat) : Char := s.getD i nulChar

/-- `strlen` on the embedded C string (the characters before the first
NUL; for NUL-free lists simply the length). -/
def strlenC (s : List Char) : Nat := (s.takeWhile (fun c => c ≠ nulChar)).length

/-- `isdigit` restricted to ASCII as used by the parser. -/
def isdigit (c : Char) : Bool := '0' ≤ c && c ≤ '9'

/-- The loop of `parse_uint` (src/vrctl.c:452-466): scan at most `maxlen`
characters (`maxlen = 0` means unbounded), stopping at the string
terminator; any non-digit is fatal (`die`). -/
def parse_uint_go : List Char → Nat → Nat → Nat → Except Unit Nat
  | s, maxlen, i, acc =>
    if maxlen ≠ 0 ∧ maxlen ≤ i then .ok acc
    else
      match s with
      | [] => .ok acc
      | c :: rest =>
        if c = nulChar then .ok acc
        else if ¬ isdigit c then .error ()
        else parse_uint_go rest maxlen (i + 1) (acc * 10 + (c.toNat - 48))

/-- Embedding of `parse_uint` (src/vrctl.c:452-466): the scan loop
followed by the range check (`maxval = 0` disables it; the `ret < 0`
overflow check cannot fire over `Nat`). -/
def parse_uint (s : List Char) (maxlen maxval : Nat) : Except Unit Nat :=
  match parse_uint_go s maxlen 0 0 with
  | .error e => .error e
  | .ok ret => if maxval ≠ 0 ∧ maxval < ret then .error () else .ok ret

/-- Embedding of `struct resp` (src/vrctl.c:274-280). -/
structure Resp where
  type0 : Char
  arg0 : Nat
  type1 : Char
  arg1 : Nat
  arg1_precision : Nat
  deriving DecidableEq

/-- An arbitrary prior `struct resp` content; used where the C code
leaves the structure uninitialized. -/
def respUndef : Resp := ⟨nulChar, 0, nulChar, 0, 0⟩

/-- Embedding of `parse_temp` (src/vrctl.c:468-485).  `buf` is the
sub-string starting at offset 18 of the response line; `r` is the
response structure being filled in.  The format byte's bits 0-2 give the
byte count, a nonzero value in bits 3-4 selects Fahrenheit, bits 5-7
give the fractional precision; counts other than 1 or 2, or a line too
short for the declared count, are fatal (`die`). -/
def parse_temp (buf : List Char) (r : Resp) : Except Unit Resp :=
  match parse_uint buf 3 0 with
  | .error e => .error e
  | .ok fmt =>
    let bytes := fmt &&& 0x07
    let t1 := if fmt &&& 0x18 ≠ 0 then 'F' else 'C'
    let prec := (fmt >>> 5) &&& 0x07
    if bytes = 0 ∨ 2 < bytes ∨ strlenC buf < 3 + bytes * 4 then .error ()
    else if bytes = 1 then
      match parse_uint (buf.drop 4) 3 0 with
      | .error e => .error e
      | .ok v => .ok { r with type1 := t1, arg1 := v, arg1_precision := prec }
    else
      match parse_uint (buf.drop 4) 3 0, parse_uint (buf.drop 8) 3 0 with
      | .ok hi, .ok lo =>
        .ok { r with type1 := t1, arg1 := (hi <<< 8) ||| lo, arg1_precision := prec }
      | .error e, _ => .error e
      | _, .error e => .error e

/-- `strncmp(s, lit, strlen(lit)) == 0` for a literal `lit`, i.e. `lit`
is a prefix of the C string `s`. -/
def has_pfx (s lit : List Char) : Bool := List.isPrefixOf lit s

/-- Embedding of `parse_resp` (src/vrctl.c:487-526).  A line not
starting with `<`, or whose code is not an uppercase letter, is rejected
(the C function returns -1); `parse_uint` failures are fatal.  Note
which fields of `r` each branch leaves untouched. -/
def parse_resp (buf : List Char) (r : Resp) : Except Unit Resp :=
  if cAt buf 0 ≠ '<' then .error ()
  else if cAt buf 1 < 'A' ∨ 'Z' < cAt buf 1 then .error ()
  else
    match parse_uint (buf.drop 2) 3 0 with
    | .error e => .error e
    | .ok a0 =>
      let r1 : Resp := { r with type0 := cAt buf 1, arg0 := a0 }
      if cAt buf 5 = nulChar then
        .ok { r1 with type1 := nulChar }
      else if has_pfx (buf.drop 5) ":049,005,001,".data ∨
              has_pfx (buf.drop 5) ":067,003,002,".data then
        parse_temp (buf.drop 18) r1
      else if has_pfx (buf.drop 5) ":064,003,".data then
        match parse_uint (buf.drop 14) 3 0 with
        | .error e => .error e
        | .ok v => .ok { r1 with arg1 := v }
      else
        match parse_uint (buf.drop 6) 3 0 with
        | .error e => .error e
        | .ok v => .ok { r1 with type1 := cAt buf 5, arg1 := v }

/-! ## Command/response engine (src/vrctl.c:528-576) -/

/-- The ways `wait_resp` / `read_resp` terminate the process. -/
inductive WaitErr where
  | timedOut      -- `read_resp` died (timeout or input overflow)
  | badResp       -- `parse_resp` rejected a line, or `parse_uint` died
  | deviceError   -- an `E` line with nonzero value arrived
  deriving DecidableEq

/-- Embedding of `wait_resp` (src/vrctl.c:528-541): read and parse lines
(into the same `struct resp`) until one whose primary code equals
`expected` arrives; any `E` line with nonzero value is immediately
fatal, checked before the loop condition.  `lines` is the sequence of
lines the device produces; running out models the `read_resp` timeout. -/
def wait_resp (lines : List String) (expected : Char) (r : Resp) : Except WaitErr Resp :=
  match lines with
  | [] => .error .timedOut
  | buf :: rest =>
    match parse_resp buf.data r with
    | .error _ => .error .badResp
    | .ok r2 =>
      if r2.type0 = 'E' ∧ r2.arg0 ≠ 0 then .error .deviceError
      else if r2.type0 = expected then .ok r2
      else wait_resp rest expected r2

/-- Embedding of `send_then_recv` (src/vrctl.c:543-556): write the
command, wait for the expected code, return the matching line's primary
value.  `r0` is the content of the uninitialized local `struct resp`. -/
def send_then_recv (lines : List String) (expected : Char) (r0 : Resp) : Except WaitErr Nat :=
  match wait_resp lines expected r0 with
  | .error e => .error e
  | .ok r => .ok r.arg0

/-- The primary code and value of a response line, as assigned by
`parse_resp` (these two fields do not depend on the prior structure
contents); `none` for a line every parse rejects. -/
def line_code (buf : String) : Option (Char × Nat) :=
  match parse_resp buf.data respUndef with
  | .error _ => none
  | .ok r => some (r.type0, r.arg0)

/-- Embedding of the probe loop of `sync_interface`
(src/vrctl.c:558-576), after the settle delay and input flush.
`replies` gives, for each blank-line probe that would be sent, the line
`read_line` returns for it (`none` for a timeout or overflow).  The C
loop runs `i = 0, 1, 2`; a reply equal to `<E000` returns at once
(`.ok n` with `n` the number of probes sent); otherwise after 3 failed
probes the process dies (`.error ()`). -/
def sync_go : List (Option String) → Nat → Except Unit Nat
  | [], _ => .error ()
  | rep :: rest, n =>
    match rep with
    | some s => if 0 < s.length ∧ s = "<E000" then .ok (n + 1) else sync_go rest (n + 1)
    | none => sync_go rest (n + 1)

/-- `sync_interface`: exactly 3 probe attempts (the first three entries
of `replies`). -/
def sync_interface (replies : List (Option String)) : Except Unit Nat :=
  sync_go (replies.take 3) 0

/-! ## ST upgrade protocol (src/vrctl.c:956-1124) -/

/-- Observable events of the ST bootloader sync loop
(src/vrctl.c:1039-1062). -/
inductive StEv where
  | probe (i : Nat)   -- flush input, send sync byte 0x7F, await one byte
  | recovery          -- the software recovery sequence of the i == 2 arm
  | fatal             -- the `die` of the i == 4 arm
  deriving DecidableEq

/-- Whether an `StEv` is a sync-byte probe. -/
def is_probe : StEv → Bool
  | .probe _ => true
  | _ => false

/-- Embedding of the sync loop of `upgrade_st` (src/vrctl.c:1039-1062).
`replies` gives, per attempt, the byte `st_getbytes` obtains for the
0x7F sync byte (`none` for a timeout).  Each iteration probes; a 0x79
reply breaks out (`some true`); otherwise, after the failed attempt at
index 2 the recovery sequence runs, and after the failed attempt at
index 4 the process dies (`some false`).  `none` means the modelled
reply list ran out with the loop still running. -/
def st_sync_go : List (Option Nat) → Nat → List StEv × Option Bool
  | [], _ => ([], none)
  | rep :: rest, i =>
    if rep = some 0x79 then ([.probe i], some true)
    else
      let evs := if i = 2 then [StEv.probe i, StEv.recovery] else [StEv.probe i]
      if i = 4 then (evs ++ [StEv.fatal], some false)
      else
        let p := st_sync_go rest (i + 1)
        (evs ++ p.1, p.2)

/-- The sync loop started at `i = 0`. -/
def st_sync (replies : List (Option Nat)) : List StEv × Option Bool :=
  st_sync_go replies 0

/-- Embedding of `st_parsehex` (src/vrctl.c:989-1001): decode two
ASCII-hex characters (uppercase `A`-`F` or digits assumed) into one
byte. -/
def st_parsehex (c1 c2 : Char) : Nat :=
  ((if 'A' ≤ c1 then 0x0a + c1.toNat - 'A'.toNat else c1.toNat - '0'.toNat) <<< 4) |||
  (if 'A' ≤ c2 then 0x0a + c2.toNat - 'A'.toNat else c2.toNat - '0'.toNat)

/-- Embedding of `st_xor` (src/vrctl.c:1003-1011): append to a frame the
XOR of its bytes. -/
def st_xor (l : List Nat) : List Nat :=
  l ++ [l.foldl (fun a b => a ^^^ b) 0]

/-- The set-address frame built for one data record
(src/vrctl.c:1096-1100): `binbuf` starts as `08 00 00 00`, bytes 2 and 3
are overwritten with the record's address high and low bytes (hex pairs
at offsets 3 and 5 of the record line), and `st_xor` appends the
checksum of the 4 bytes, for 5 bytes in all. -/
def st_set_address (buf : List Char) : List Nat :=
  st_xor [0x08, 0x00, st_parsehex (cAt buf 3) (cAt buf 4),
          st_parsehex (cAt buf 5) (cAt buf 6)]

/-! ## Zensys upgrade protocol (src/vrctl.c:887-954) -/

/-- The ways `upgrade_zensys` aborts the process. -/
inductive ZErr where
  | syncFail   -- `sync_interface` died
  | timedOut   -- `read_resp` died (device line stream exhausted)
  | badResp    -- a header-phase response check died
  | ub         -- the terminator strip dereferenced a NULL `index()` result
  deriving DecidableEq

/-- The acknowledgment and follow-up lines read by the Zensys
programming loop, in order. -/
inductive ZEv where
  | ack (s : String)
  | follow (s : String)
  deriving DecidableEq

/-- Prefix test on device lines, i.e. `strncmp(buf, lit, strlen(lit)) == 0`. -/
def spfx (s lit : String) : Bool := has_pfx s.data lit.data

/-- The first verify-phase loop (src/vrctl.c:946-947): starting from the
line left in `buf`, read further lines until one starts with `:`;
returns the unread remainder of the device stream. -/
def zen_verify_first : List String → String → Except ZErr (List String)
  | dev, buf =>
    if cAt buf.data 0 = ':' then .ok dev
    else
      match dev with
      | [] => .error .timedOut
      | l :: rest => zen_verify_first rest l

/-- The second verify-phase loop (src/vrctl.c:949-951): read lines until
one starts with `<B000`. -/
def zen_verify_drain : List String → Except ZErr Unit
  | [] => .error .timedOut
  | l :: rest => if spfx l "<B000" then .ok () else zen_verify_drain rest

/-- The whole verify phase, entered with the last line read in `buf`. -/
def zen_verify (dev : List String) (buf : String) : Except ZErr Unit :=
  match zen_verify_first dev buf with
  | .error e => .error e
  | .ok rest => zen_verify_drain rest

/-- Prepend the given events to the log of a completed run. -/
def zen_addev (evs : List ZEv) : Except ZErr (Nat × List ZEv) → Except ZErr (Nat × List ZEv)
  | .error e => .error e
  | .ok (ret, l) => .ok (ret, evs ++ l)

/-- The Zensys programming loop (src/vrctl.c:912-941) followed by the
verify phase, instrumented with the list of (ack, follow-up) lines it
reads.  `fl` is the sequence of lines `fgets` returns (with their
terminators), `dev` the device's line stream, `ret` the aggregate
warning flag so far, and `buf` the current contents of the shared line
buffer (used by the verify phase when the loop exits without reading a
further line).  Each iteration: stop if the next file line does not
start with `:` ; strip its terminator (NULL-dereference if it lacks LF
or CR); send it; read an ack line (`<E000` prefix, else warn and set
`ret = 1`); read a follow-up line (`<B` prefix continues, a `:` line is
the final verification payload and ends the loop, anything else warns
and sets `ret = 1`). -/
def zen_go : List String → List String → Nat → String → Except ZErr (Nat × List ZEv)
  | [], dev, ret, buf =>
    (match zen_verify dev buf with
     | .error e => .error e
     | .ok _ => .ok (ret, []))
  | line :: fl, dev, ret, _buf =>
    if cAt line.data 0 ≠ ':' then
      match zen_verify dev line with
      | .error e => .error e
      | .ok _ => .ok (ret, [])
    else
      match strip_line line.data with
      | none => .error .ub
      | some _stripped =>
        match dev with
        | [] => .error .timedOut
        | ack :: dev1 =>
          match dev1 with
          | [] => .error .timedOut
          | fol :: dev2 =>
            if spfx fol "<B" then
              zen_addev [ZEv.ack ack, ZEv.follow fol]
                (zen_go fl dev2 (if spfx ack "<E000" then ret else 1) fol)
            else if cAt fol.data 0 = ':' then
              match zen_verify dev2 fol with
              | .error e => .error e
              | .ok _ =>
                .ok (if spfx ack "<E000" then ret else 1,
                     [ZEv.ack ack, ZEv.follow fol])
            else
              zen_addev [ZEv.ack ack, ZEv.follow fol] (zen_go fl dev2 1 fol)

/-- Embedding of `upgrade_zensys` (src/vrctl.c:887-954): sync the
interface (probe replies in `syncReplies`), send `>ZB`, check its three
responses (`<E000`, the 13-character hardware preamble, then `<B000`
with the longer timeout), then run the programming loop and verify
phase.  Returns the final `ret` (0 clean, 1 completed with warnings)
and the logged programming-loop lines. -/
def upgrade_zensys (syncReplies : List (Option String)) (fl dev : List String) :
    Except ZErr (Nat × List ZEv) :=
  match sync_interface syncReplies with
  | .error _ => .error .syncFail
  | .ok _ =>
    match dev with
    | [] => .error .timedOut
    | l1 :: d1 =>
      if ¬ spfx l1 "<E000" then .error .badResp
      else
        match d1 with
        | [] => .error .timedOut
        | l2 :: d2 =>
          if ¬ spfx l2 ":7F7F7F7F1F00" then .error .badResp
          else
            match d2 with
            | [] => .error .timedOut
            | l3 :: d3 =>
              if ¬ spfx l3 "<B000" then .error .badResp
              else zen_go fl d3 0 l3

/-- A programming-loop line the code accepts silently: an ack with the
`<E000` prefix, or a follow-up that is a ready marker (`<B` prefix) or
the final `:`-prefixed verification line. -/
def zen_clean : ZEv → Bool
  | .ack s => spfx s "<E000"
  | .follow s => spfx s "<B" || (cAt s.data 0 = ':')

/-! ## Theorems -/

/-- C1 (counterexample): `write_line` does not transmit only the line's
characters and a single CR.  For the one-character line `A`, the
transmitted byte sequence is `41 0D 00` — the C code writes the 2-byte
array `"\r"` (CR and the string terminator), so a stray NUL follows the
CR — which differs from `41 0D`. -/
theorem write_line_single_cr_false :
    write_line [65] [5, 5] = some [65, 13, 0] ∧ [65, 13, 0] ≠ [65] ++ [13] := by
  decide

/-- C1 (amended): every completed `write_line` transmission is exactly
the characters of the line followed by CR (0x0D) and a NUL (0x00) byte,
for any schedule of partial-write sizes; partial writes are retried
until the whole sequence goes out. -/
theorem write_line_bytes (text sched out : List Nat)
    (h : write_line text sched = some out) : out = text ++ [13, 0] := by
  unfold write_line at h
  rcases h1 : write_loop text sched with _ | ⟨a, s2⟩ <;> rw [h1] at h
  · exact absurd h (by simp)
  · dsimp only at h
    rcases h2 : write_loop [13, 0] s2 with _ | ⟨b, s3⟩ <;> rw [h2] at h
    · exact absurd h (by simp)
    · have ha := write_loop_eq _ _ _ _ h1
      have hb := write_loop_eq _ _ _ _ h2
      simp only [Option.some.injEq] at h
      rw [← h, ha, hb]

/-- C1 (witness): the amended theorem at the concrete line `A` with a
generous write schedule. -/
theorem write_line_bytes_witness : [65, 13, 0] = [65] ++ [13, 0] :=
  write_line_bytes [65] [5, 5] [65, 13, 0] (by decide)

/-- C8: `read_line` with `maxlen = 4` on the four non-terminator bytes
`A B C D` stores at indices 0-3 and then, on the buffer-full path,
stores the NUL terminator at index 4 = `maxlen` — one past the end of
the caller's buffer, outside indices `0 .. maxlen-1`. -/
theorem read_line_oob_store :
    read_line [65, 66, 67, 68] 4 =
      ([(0, 65), (1, 66), (2, 67), (3, 68), (4, 0)], .overflow) ∧
    (4, 0) ∈ (read_line [65, 66, 67, 68] 4).1 ∧ ¬ (4 < 4) := by
  decide

/-- C9: the terminator strip of the upgrade programming loops is not
total.  For the Unix-style line `:00000001FF\n` the search for `'\r'`
(after the `'\n'` strip) returns no position, and for the unterminated
line `:00000001FF` already the `'\n'` search does, so the unguarded
`*newline` dereference is reached (`strip_line = none`); a CRLF line
strips cleanly; and the `none` branch is reachable inside the Zensys
programming loop itself. -/
theorem strip_line_null_deref :
    cIndex '\r' ":00000001FF".data = none ∧
    strip_line ":00000001FF\n".data = none ∧
    cIndex '\n' ":00000001FF".data = none ∧
    strip_line ":00000001FF".data = none ∧
    strip_line ":00000001FF\r\n".data = some ":00000001FF".data ∧
    upgrade_zensys [some "<E000"] [":00000001FF\n"]
      ["<E000", ":7F7F7F7F1F00", "<B000"] = .error .ub := by
  decide

/-- C4 (counterexample): against a target that never sends the 0x79 ACK
byte the ST sync loop sends the 0x7F sync byte five times (attempt
indices 0-4), not at most four: the probe of attempt index 4 happens
before the `i == 4` fatal check. -/
theorem st_sync_five_probes :
    ((st_sync (List.replicate 5 none)).1.filter is_probe).length = 5 ∧
    ¬ ((st_sync (List.replicate 5 none)).1.filter is_probe).length ≤ 4 := by
  decide

/-- C4 (amended): against a target that never sends the 0x79 ACK byte,
the loop makes exactly 5 attempts (indices 0-4), performs software
recovery exactly once, right after the failed attempt at index 2, and
aborts fatally after the failed probe of attempt index 4, never sending
a sixth sync byte. -/
theorem st_sync_never_ack (replies : List (Option Nat))
    (hlen : replies.length = 5) (hno : ∀ x ∈ replies, x ≠ some 0x79) :
    st_sync replies =
      ([.probe 0, .probe 1, .probe 2, .recovery, .probe 3, .probe 4, .fatal],
       some false) := by
  rcases replies with _ | ⟨a, _ | ⟨b, _ | ⟨c, _ | ⟨d, _ | ⟨e, rest⟩⟩⟩⟩⟩ <;>
    simp_all [st_sync, st_sync_go]

/-- C4 (witness): the amended theorem at an all-timeout reply stream. -/
theorem st_sync_never_ack_witness :
    st_sync (List.replicate 5 none) =
      ([.probe 0, .probe 1, .probe 2, .recovery, .probe 3, .probe 4, .fatal],
       some false) :=
  st_sync_never_ack (List.replicate 5 none) (by decide) (by decide)

/-- C5 (counterexample): the set-address frame for address 0x1234 is
`08 00 12 34 2E` — the fixed byte 0x08 is followed by ONE zero byte,
not two, before the address high/low bytes (the two middle bytes of the
`08 00 00 00` template are overwritten). -/
theorem st_set_address_one_zero :
    st_set_address ":00123400".data = [0x08, 0x00, 0x12, 0x34, 0x2E] ∧
    (st_set_address ":00123400".data).take 3 ≠ [0x08, 0x00, 0x00] := by
  decide

/-- C5 (amended): for every data record the transmitted set-address
frame is 5 bytes — fixed byte 0x08, one zero byte, the record's address
high and low bytes (hex pairs at line offsets 3 and 5), then the XOR
checksum of the 4 preceding bytes. -/
theorem st_set_address_spec (buf : List Char) (h l : Nat)
    (hh : st_parsehex (cAt buf 3) (cAt buf 4) = h)
    (hl : st_parsehex (cAt buf 5) (cAt buf 6) = l) :
    st_set_address buf = [0x08, 0x00, h, l, 0x08 ^^^ 0x00 ^^^ h ^^^ l] ∧
    (st_set_address buf).length = 5 := by
  subst hh hl
  unfold st_set_address st_xor
  simp [List.foldl]

/-- C5 (witness): the amended theorem at the record line for address
0x1234, giving the claim's own example frame `08 00 12 34` followed by
`0x08 ^ 0x00 ^ 0x12 ^ 0x34`. -/
theorem st_set_address_spec_witness :
    st_set_address ":00123400".data =
      [0x08, 0x00, 0x12, 0x34, 0x08 ^^^ 0x00 ^^^ 0x12 ^^^ 0x34] :=
  (st_set_address_spec ":00123400".data 0x12 0x34 (by decide) (by decide)).1

/-- Shape of `parse_temp`: for a fixed buffer it either fails for every
prior structure content, or, for fixed `t1`, `a1`, `p` determined by the
buffer alone, maps every prior content `r` to `r` with exactly the
secondary-code, secondary-value and precision fields replaced. -/
theorem parse_temp_shape (buf : List Char) :
    (∀ r, parse_temp buf r = .error ()) ∨
    (∃ t1 a1 p, ∀ r, parse_temp buf r =
      .ok { r with type1 := t1, arg1 := a1, arg1_precision := p }) := by
  rcases h1 : parse_uint buf 3 0 with e | fmt
  · left; intro r; unfold parse_temp; rw [h1]
  · by_cases hb : fmt &&& 0x07 = 0 ∨ 2 < fmt &&& 0x07 ∨
        strlenC buf < 3 + (fmt &&& 0x07) * 4
    · left; intro r; unfold parse_temp; rw [h1]; dsimp only; rw [if_pos hb]
    · by_cases h1b : fmt &&& 0x07 = 1
      · rcases h2 : parse_uint (buf.drop 4) 3 0 with e | v
        · left; intro r; unfold parse_temp
          rw [h1]; dsimp only; rw [if_neg hb, if_pos h1b, h2]
        · right
          refine ⟨if fmt &&& 0x18 ≠ 0 then 'F' else 'C', v, (fmt >>> 5) &&& 0x07,
            fun r => ?_⟩
          unfold parse_temp
          rw [h1]; dsimp only; rw [if_neg hb, if_pos h1b, h2]
      · rcases h2 : parse_uint (buf.drop 4) 3 0 with e | v1
        · left; intro r; unfold parse_temp
          rw [h1]; dsimp only; rw [if_neg hb, if_neg h1b, h2]
          rcases h3 : parse_uint (buf.drop 8) 3 0 with e2 | v2 <;> simp [h3]
        · rcases h3 : parse_uint (buf.drop 8) 3 0 with e | v2
          · left; intro r; unfold parse_temp
            rw [h1]; dsimp only; rw [if_neg hb, if_neg h1b, h2, h3]
          · right
            refine ⟨if fmt &&& 0x18 ≠ 0 then 'F' else 'C', (v1 <<< 8) ||| v2,
              (fmt >>> 5) &&& 0x07, fun r => ?_⟩
            unfold parse_temp
            rw [h1]; dsimp only; rw [if_neg hb, if_neg h1b, h2, h3]

/-- Shape of `parse_resp`: for a fixed line it either fails for every
prior structure content, or there are a primary code `c`, a primary
value `a0`, and optional updates for the three remaining fields — all
determined by the line alone — such that parsing from any prior content
`r` assigns exactly those fields, the unset ones keeping their prior
values. -/
theorem parse_resp_shape (buf : List Char) :
    (∀ r, parse_resp buf r = .error ()) ∨
    (∃ (c : Char) (a0 : Nat) (ot1 : Option Char) (oa1 op : Option Nat),
      ∀ r : Resp, parse_resp buf r =
      .ok { type0 := c, arg0 := a0, type1 := ot1.getD r.type1,
            arg1 := oa1.getD r.arg1,
            arg1_precision := op.getD r.arg1_precision }) := by
  by_cases h0 : cAt buf 0 ≠ '<'
  · left; intro r; unfold parse_resp; rw [if_pos h0]
  · by_cases hz : cAt buf 1 < 'A' ∨ 'Z' < cAt buf 1
    · left; intro r; unfold parse_resp; rw [if_neg h0, if_pos hz]
    · rcases ha : parse_uint (buf.drop 2) 3 0 with e | a0
      · left; intro r; unfold parse_resp; rw [if_neg h0, if_neg hz, ha]
      · by_cases h5 : cAt buf 5 = nulChar
        · right
          refine ⟨cAt buf 1, a0, some nulChar, none, none, fun r => ?_⟩
          unfold parse_resp
          rw [if_neg h0, if_neg hz, ha]; dsimp only; rw [if_pos h5]; rfl
        · by_cases htemp : has_pfx (buf.drop 5) ":049,005,001,".data = true ∨
              has_pfx (buf.drop 5) ":067,003,002,".data = true
          · rcases parse_temp_shape (buf.drop 18) with he | ⟨t1, a1, p, hok⟩
            · left; intro r; unfold parse_resp
              rw [if_neg h0, if_neg hz, ha]; dsimp only
              rw [if_neg h5, if_pos htemp]
              exact he _
            · right
              refine ⟨cAt buf 1, a0, some t1, some a1, some p, fun r => ?_⟩
              unfold parse_resp
              rw [if_neg h0, if_neg hz, ha]; dsimp only
              rw [if_neg h5, if_pos htemp, hok]; rfl
          · by_cases hmode : has_pfx (buf.drop 5) ":064,003,".data = true
            · rcases hm : parse_uint (buf.drop 14) 3 0 with e | v
              · left; intro r; unfold parse_resp
                rw [if_neg h0, if_neg hz, ha]; dsimp only
                rw [if_neg h5, if_neg htemp, if_pos hmode, hm]
              · right
                refine ⟨cAt buf 1, a0, none, some v, none, fun r => ?_⟩
                unfold parse_resp
                rw [if_neg h0, if_neg hz, ha]; dsimp only
                rw [if_neg h5, if_neg htemp, if_pos hmode, hm]; rfl
            · rcases hg : parse_uint (buf.drop 6) 3 0 with e | v
              · left; intro r; unfold parse_resp
                rw [if_neg h0, if_neg hz, ha]; dsimp only
                rw [if_neg h5, if_neg htemp, if_neg hmode, hg]
              · right
                refine ⟨cAt buf 1, a0, some (cAt buf 5), some v, none, fun r => ?_⟩
                unfold parse_resp
                rw [if_neg h0, if_neg hz, ha]; dsimp only
                rw [if_neg h5, if_neg htemp, if_neg hmode, hg]; rfl

/-- C6: `parse_temp` reads the 3-digit format byte; bits 0-2 give the
byte count, accepted only as 1 or 2 and checked against the line length
(fatal otherwise); a nonzero value in bits 3-4 selects Fahrenheit, both
zero Celsius; bits 5-7 give the precision; the magnitude is the declared
number of 3-digit values combined big-endian — in particular the 2-byte
reading `(001,009)` decodes to `(1 <<< 8) ||| 9 = 265`. -/
theorem parse_temp_format (buf : List Char) (r : Resp) (fmt : Nat)
    (hfmt : parse_uint buf 3 0 = .ok fmt) :
    ((fmt &&& 0x07 = 0 ∨ 2 < fmt &&& 0x07 ∨
        strlenC buf < 3 + (fmt &&& 0x07) * 4) → parse_temp buf r = .error ()) ∧
    (fmt &&& 0x07 = 1 → 3 + (fmt &&& 0x07) * 4 ≤ strlenC buf →
      ∀ v, parse_uint (buf.drop 4) 3 0 = .ok v →
      parse_temp buf r = .ok { r with
        type1 := if fmt &&& 0x18 ≠ 0 then 'F' else 'C',
        arg1 := v, arg1_precision := (fmt >>> 5) &&& 0x07 }) ∧
    (fmt &&& 0x07 = 2 → 3 + (fmt &&& 0x07) * 4 ≤ strlenC buf →
      ∀ v1 v2, parse_uint (buf.drop 4) 3 0 = .ok v1 →
        parse_uint (buf.drop 8) 3 0 = .ok v2 →
      parse_temp buf r = .ok { r with
        type1 := if fmt &&& 0x18 ≠ 0 then 'F' else 'C',
        arg1 := (v1 <<< 8) ||| v2, arg1_precision := (fmt >>> 5) &&& 0x07 }) ∧
    parse_temp "002,001,009".data respUndef =
      .ok { respUndef with type1 := 'C', arg1 := 265, arg1_precision := 0 } := by
  refine ⟨?_, ?_, ?_, by decide⟩
  · intro hb
    unfold parse_temp; rw [hfmt]; dsimp only; rw [if_pos hb]
  · intro h1 hlen v hv
    rw [h1] at hlen
    have hb : ¬ (fmt &&& 0x07 = 0 ∨ 2 < fmt &&& 0x07 ∨
        strlenC buf < 3 + (fmt &&& 0x07) * 4) := by
      rw [h1]; omega
    unfold parse_temp; rw [hfmt]; dsimp only
    rw [if_neg hb, if_pos h1, hv]
  · intro h2 hlen v1 v2 hv1 hv2
    rw [h2] at hlen
    have hb : ¬ (fmt &&& 0x07 = 0 ∨ 2 < fmt &&& 0x07 ∨
        strlenC buf < 3 + (fmt &&& 0x07) * 4) := by
      rw [h2]; omega
    have h1 : ¬ fmt &&& 0x07 = 1 := by rw [h2]; omega
    unfold parse_temp; rw [hfmt]; dsimp only
    rw [if_neg hb, if_neg h1, hv1, hv2]

/-- C6 (witness): the general theorem applied to the concrete 2-byte
temperature buffer `002,001,009` (format byte 2: count 2, Celsius,
precision 0; values 001 and 009). -/
theorem parse_temp_format_witness :
    parse_temp "002,001,009".data respUndef = .ok { respUndef with
      type1 := if 2 &&& 0x18 ≠ 0 then 'F' else 'C',
      arg1 := (1 <<< 8) ||| 9, arg1_precision := (2 >>> 5) &&& 0x07 } :=
  (parse_temp_format "002,001,009".data respUndef 2 (by decide)).2.2.1
    (by decide) (by decide) 1 9 (by decide) (by decide)

/-- C10 (counterexample): `parse_resp` is not deterministic in its input
line.  For the thermostat-mode report `<N003:064,003,005` the secondary
code and the precision keep their prior contents, and for the
no-secondary line `<N003` the secondary value and the precision do, so
two parses of the same line from different prior structure contents
yield different Responses. -/
theorem parse_resp_prior_dependence :
    parse_resp "<N003:064,003,005".data ⟨'A', 9, 'L', 9, 9⟩ ≠
      parse_resp "<N003:064,003,005".data ⟨'A', 9, 'M', 9, 4⟩ ∧
    parse_resp "<N003".data ⟨'A', 9, nulChar, 7, 3⟩ ≠
      parse_resp "<N003".data ⟨'A', 9, nulChar, 8, 5⟩ := by
  decide

/-- C10 (amended): two parses of the same accepted line always agree on
the primary code and primary value (those are assigned from the line on
every accepted path); the remaining fields (secondary code, secondary
value, value precision) may keep their prior contents on the
thermostat-mode, no-secondary and generic-secondary paths. -/
theorem parse_resp_primary_det (buf : List Char) (r1 r2 v1 v2 : Resp)
    (h1 : parse_resp buf r1 = .ok v1) (h2 : parse_resp buf r2 = .ok v2) :
    v1.type0 = v2.type0 ∧ v1.arg0 = v2.arg0 := by
  rcases parse_resp_shape buf with he | ⟨c, a0, ot1, oa1, op, hf⟩
  · rw [he r1] at h1; exact absurd h1 (by simp)
  · rw [hf r1] at h1
    rw [hf r2] at h2
    simp only [Except.ok.injEq] at h1 h2
    rw [← h1, ← h2]
    exact ⟨rfl, rfl⟩

/-- C10 (witness): the amended theorem at the no-secondary line `<X005`
from two different prior contents. -/
theorem parse_resp_primary_det_witness :
    (Resp.mk 'X' 5 nulChar 0 0).type0 = (Resp.mk 'X' 5 nulChar 2 3).type0 ∧
    (Resp.mk 'X' 5 nulChar 0 0).arg0 = (Resp.mk 'X' 5 nulChar 2 3).arg0 :=
  parse_resp_primary_det "<X005".data respUndef ⟨'Q', 1, 'R', 2, 3⟩ _ _
    (by decide) (by decide)

/-- Transfer of `parse_resp` success across prior structure contents:
the accepted/rejected status and the primary fields depend only on the
line. -/
theorem parse_resp_transfer (buf : List Char) (r1 v1 r2 : Resp)
    (h : parse_resp buf r1 = .ok v1) :
    ∃ v2, parse_resp buf r2 = .ok v2 ∧ v2.type0 = v1.type0 ∧ v2.arg0 = v1.arg0 := by
  rcases parse_resp_shape buf with he | ⟨c, a0, ot1, oa1, op, hf⟩
  · rw [he r1] at h; exact absurd h (by simp)
  · rw [hf r1] at h
    simp only [Except.ok.injEq] at h
    exact ⟨_, hf r2, by rw [← h], by rw [← h]⟩

/-- Relates `line_code` to a parse from an arbitrary prior content. -/
theorem line_code_parse (buf : String) (c : Char) (w : Nat) (r : Resp)
    (h : line_code buf = some (c, w)) :
    ∃ v, parse_resp buf.data r = .ok v ∧ v.type0 = c ∧ v.arg0 = w := by
  unfold line_code at h
  rcases hp : parse_resp buf.data respUndef with e | v0 <;> rw [hp] at h
  · exact absurd h (by simp)
  · simp only [Option.some.injEq, Prod.mk.injEq] at h
    obtain ⟨v2, hv2, ht, ha⟩ := parse_resp_transfer buf.data respUndef v0 r hp
    exact ⟨v2, hv2, ht.trans h.1, ha.trans h.2⟩

/-- C2: while awaiting the code `expected`, `wait_resp` discards every
line whose primary code is neither `expected` nor a nonzero-valued `E`;
the first line whose code is `expected` ends the wait, and its primary
value is what `send_then_recv` would return; and as soon as any line
with code `E` and nonzero value arrives the process dies — regardless
of which code is being awaited (an `E` line with nonzero value is fatal
even while awaiting `E`). -/
theorem wait_resp_spec (expected : Char) (pre : List String) :
    ∀ (r : Resp) (b : String) (post : List String),
    (∀ a ∈ pre, ∃ c w, line_code a = some (c, w) ∧ c ≠ expected ∧
      ¬ (c = 'E' ∧ w ≠ 0)) →
    ((∀ v, line_code b = some (expected, v) → ¬ (expected = 'E' ∧ v ≠ 0) →
        ∃ rr, wait_resp (pre ++ b :: post) expected r = .ok rr ∧ rr.arg0 = v) ∧
     (∀ v, line_code b = some ('E', v) → v ≠ 0 →
        wait_resp (pre ++ b :: post) expected r = .error .deviceError)) := by
  induction pre with
  | nil =>
    intro r b post _hpre
    constructor
    · intro v hb hnv
      obtain ⟨vb, hvb, ht, ha⟩ := line_code_parse b expected v r hb
      refine ⟨vb, ?_, ha⟩
      simp only [List.nil_append, wait_resp]
      rw [hvb]
      dsimp only
      rw [if_neg (by rw [ht, ha]; exact hnv), if_pos ht]
    · intro v hb hv
      obtain ⟨vb, hvb, ht, ha⟩ := line_code_parse b 'E' v r hb
      simp only [List.nil_append, wait_resp]
      rw [hvb]
      dsimp only
      rw [if_pos ⟨ht, by rw [ha]; exact hv⟩]
  | cons a pre ih =>
    intro r b post hpre
    obtain ⟨c, w, hlc, hne, hnE⟩ := hpre a (by simp)
    obtain ⟨va, hva, hta, haa⟩ := line_code_parse a c w r hlc
    have h2 := ih va b post (fun x hx => hpre x (by simp [hx]))
    constructor
    · intro v hb hnv
      obtain ⟨rr, hrr, harr⟩ := h2.1 v hb hnv
      refine ⟨rr, ?_, harr⟩
      simp only [List.cons_append, wait_resp]
      rw [hva]
      dsimp only
      rw [if_neg (by rw [hta, haa]; exact hnE), if_neg (by rw [hta]; exact hne)]
      exact hrr
    · intro v hb hv
      have hrr := h2.2 v hb hv
      simp only [List.cons_append, wait_resp]
      rw [hva]
      dsimp only
      rw [if_neg (by rw [hta, haa]; exact hnE), if_neg (by rw [hta]; exact hne)]
      exact hrr

/-- C2 (witness): awaiting `X` across a zero-valued `E` line and an `N`
report line, the first `X` line's value (5) is returned. -/
theorem wait_resp_spec_witness :
    ∃ rr, wait_resp ["<E000", "<N003L000", "<X005"] 'X' respUndef = .ok rr ∧
      rr.arg0 = 5 :=
  (wait_resp_spec 'X' ["<E000", "<N003L000"] respUndef "<X005" []
    (by
      intro a ha
      rcases List.mem_cons.mp ha with rfl | ha2
      · exact ⟨'E', 0, by decide, by decide, by decide⟩
      · rcases List.mem_cons.mp ha2 with rfl | h3
        · exact ⟨'N', 3, by decide, by decide, by decide⟩
        · exact absurd h3 (List.not_mem_nil a))).1 5 (by decide) (by decide)

/-- One probe step of the sync loop: a reply equal to `<E000`
succeeds, anything else (including a timeout) moves to the next
attempt. -/
theorem sync_go_cons (x : Option String) (rest : List (Option String)) (n : Nat) :
    sync_go (x :: rest) n =
      if x = some "<E000" then .ok (n + 1) else sync_go rest (n + 1) := by
  cases x with
  | none => simp [sync_go]
  | some s =>
    by_cases hs : s = "<E000"
    · subst hs
      simp [sync_go]
      exact fun h => absurd h (by decide)
    · simp only [sync_go]
      rw [if_neg (by simp [hs]), if_neg (by simp [hs])]

/-- C3: the probe loop of `sync_interface`, given the replies its three
possible probes would get: it dies (after all 3 probes) exactly when
none of the three replies is the exact line `<E000`; a match on probe 1
succeeds after 1 probe, a match on probe 2 (first probe failing)
succeeds after 2 probes with no 3rd probe sent, a match on probe 3
succeeds after 3; and a successful sync never takes more than 3
probes. -/
theorem sync_interface_spec (a b c : Option String) :
    (sync_interface [a, b, c] = .error () ↔
      (a ≠ some "<E000" ∧ b ≠ some "<E000" ∧ c ≠ some "<E000")) ∧
    (a = some "<E000" → sync_interface [a, b, c] = .ok 1) ∧
    (a ≠ some "<E000" → b = some "<E000" → sync_interface [a, b, c] = .ok 2) ∧
    (a ≠ some "<E000" → b ≠ some "<E000" → c = some "<E000" →
      sync_interface [a, b, c] = .ok 3) ∧
    (∀ n, sync_interface [a, b, c] = .ok n → n ≤ 3) := by
  have he : sync_interface [a, b, c] =
      if a = some "<E000" then .ok 1
      else if b = some "<E000" then .ok 2
      else if c = some "<E000" then .ok 3
      else .error () := by
    unfold sync_interface
    rw [show ([a, b, c].take 3) = [a, b, c] from rfl]
    rw [sync_go_cons, sync_go_cons, sync_go_cons]
    rfl
  rw [he]
  by_cases ha : a = some "<E000" <;> by_cases hb : b = some "<E000" <;>
    by_cases hc : c = some "<E000" <;>
    simp [ha, hb, hc]

/-- C3 (witness): a timeout on probe 1 followed by `<E000` on probe 2
syncs after exactly 2 probes. -/
theorem sync_interface_spec_witness :
    sync_interface [none, some "<E000", none] = .ok 2 :=
  (sync_interface_spec none (some "<E000") none).2.2.1 (by decide) rfl

/-- Invariant of the Zensys programming loop: a completed run's final
warning flag stays in {0, 1}, and it is 0 exactly when it started 0 and
every logged ack/follow-up line is clean. -/
theorem zen_go_ret (f : List String) :
    ∀ (d : List String) (ret : Nat) (buf : String) (res : Nat) (evs : List ZEv),
    (ret = 0 ∨ ret = 1) → zen_go f d ret buf = .ok (res, evs) →
    (res = 0 ∨ res = 1) ∧
    (res = 0 ↔ (ret = 0 ∧ ∀ e ∈ evs, zen_clean e = true)) := by
  induction f with
  | nil =>
    intro d ret buf res evs hret h
    simp only [zen_go] at h
    rcases hv : zen_verify d buf with e | u <;> rw [hv] at h
    · exact absurd h (by simp)
    · simp only [Except.ok.injEq, Prod.mk.injEq] at h
      obtain ⟨h1, h2⟩ := h
      subst h1
      subst h2
      refine ⟨hret, ?_⟩
      simp
  | cons line fl ih =>
    intro d ret buf res evs hret h
    simp only [zen_go] at h
    by_cases hcol : cAt line.data 0 ≠ ':'
    · rw [if_pos hcol] at h
      rcases hv : zen_verify d line with e | u <;> rw [hv] at h
      · exact absurd h (by simp)
      · simp only [Except.ok.injEq, Prod.mk.injEq] at h
        obtain ⟨h1, h2⟩ := h
        subst h1
        subst h2
        refine ⟨hret, ?_⟩
        simp
    · rw [if_neg hcol] at h
      rcases hs : strip_line line.data with _ | body <;> rw [hs] at h
      · exact absurd h (by simp)
      · cases d with
        | nil => exact absurd h (by simp)
        | cons ack dev1 =>
          cases dev1 with
          | nil => exact absurd h (by simp)
          | cons fol dev2 =>
            dsimp only at h
            by_cases hB : spfx fol "<B" = true
            · rw [if_pos hB] at h
              rcases hz : zen_go fl dev2 (if spfx ack "<E000" then ret else 1) fol
                  with e | p <;> rw [hz] at h <;> simp only [zen_addev] at h
              · exact absurd h (by simp)
              · obtain ⟨r2, evs2⟩ := p
                have hret1 : (if spfx ack "<E000" then ret else 1) = 0 ∨
                    (if spfx ack "<E000" then ret else 1) = 1 := by
                  by_cases hack : spfx ack "<E000" = true
                  · simpa [hack] using hret
                  · simp [hack]
                obtain ⟨hr2, hiff⟩ := ih dev2 _ fol r2 evs2 hret1 hz
                simp only [Except.ok.injEq, Prod.mk.injEq] at h
                obtain ⟨h1, h2⟩ := h
                refine ⟨by rw [← h1]; exact hr2, ?_⟩
                rw [← h1, ← h2, hiff]
                by_cases hack : spfx ack "<E000" = true <;>
                  simp [hack, zen_clean, hB, List.forall_mem_cons]
            · by_cases hfol : cAt fol.data 0 = ':'
              · rw [if_neg hB, if_pos hfol] at h
                rcases hv : zen_verify dev2 fol with e | u <;> rw [hv] at h
                · exact absurd h (by simp)
                · simp only [Except.ok.injEq, Prod.mk.injEq] at h
                  obtain ⟨h1, h2⟩ := h
                  constructor
                  · rw [← h1]
                    by_cases hack : spfx ack "<E000" = true
                    · simpa [hack] using hret
                    · simp [hack]
                  · rw [← h1, ← h2]
                    by_cases hack : spfx ack "<E000" = true <;>
                      simp [hack, zen_clean, hB, hfol, List.forall_mem_cons]
              · rw [if_neg hB, if_neg hfol] at h
                rcases hz : zen_go fl dev2 1 fol with e | p <;> rw [hz] at h <;>
                  simp only [zen_addev] at h
                · exact absurd h (by simp)
                · obtain ⟨r2, evs2⟩ := p
                  obtain ⟨hr2, hiff⟩ := ih dev2 1 fol r2 evs2 (Or.inr rfl) hz
                  simp only [Except.ok.injEq, Prod.mk.injEq] at h
                  obtain ⟨h1, h2⟩ := h
                  refine ⟨by rw [← h1]; exact hr2, ?_⟩
                  rw [← h1, ← h2, hiff]
                  simp [zen_clean, hB, hfol, List.forall_mem_cons]

/-- C7: a completed Zensys upgrade returns 0 or 1, and returns the
clean result 0 if and only if every acknowledgment line read during
programming had the zero-value `<E000` prefix and every follow-up line
was a `<B` ready marker or the final `:`-prefixed verification line; a
non-zero acknowledgment never aborts the run — it only forces the
completed-with-warnings result 1. -/
theorem upgrade_zensys_clean_iff (syncReplies : List (Option String))
    (f d : List String) (res : Nat) (evs : List ZEv)
    (h : upgrade_zensys syncReplies f d = .ok (res, evs)) :
    (res = 0 ∨ res = 1) ∧ (res = 0 ↔ ∀ e ∈ evs, zen_clean e = true) := by
  unfold upgrade_zensys at h
  rcases hs : sync_interface syncReplies with e | n <;> rw [hs] at h
  · exact absurd h (by simp)
  · cases d with
    | nil => exact absurd h (by simp)
    | cons l1 d1 =>
      dsimp only at h
      by_cases h1 : ¬ spfx l1 "<E000" = true
      · rw [if_pos h1] at h; exact absurd h (by simp)
      · rw [if_neg h1] at h
        cases d1 with
        | nil => exact absurd h (by simp)
        | cons l2 d2 =>
          dsimp only at h
          by_cases h2 : ¬ spfx l2 ":7F7F7F7F1F00" = true
          · rw [if_pos h2] at h; exact absurd h (by simp)
          · rw [if_neg h2] at h
            cases d2 with
            | nil => exact absurd h (by simp)
            | cons l3 d3 =>
              dsimp only at h
              by_cases h3 : ¬ spfx l3 "<B000" = true
              · rw [if_pos h3] at h; exact absurd h (by simp)
              · rw [if_neg h3] at h
                have := zen_go_ret f d3 0 l3 res evs (Or.inl rfl) h
                simpa using this

/-- C7 (witness): a two-record file where the second block's
acknowledgment is the non-zero `<E077`: the run still completes, with
result 1, and the clean-iff equivalence holds on its logged lines. -/
theorem upgrade_zensys_clean_iff_witness :
    ((1 : Nat) = 0 ∨ (1 : Nat) = 1) ∧
    ((1 : Nat) = 0 ↔ ∀ e ∈ [ZEv.ack "<E000", ZEv.follow "<B000",
        ZEv.ack "<E077", ZEv.follow ":FINAL"], zen_clean e = true) :=
  upgrade_zensys_clean_iff [some "<E000"] [":ABC\r\n", ":DEF\r\n"]
    ["<E000", ":7F7F7F7F1F00", "<B000", "<E000", "<B000", "<E077", ":FINAL",
     "<B000"] 1
    [ZEv.ack "<E000", ZEv.follow "<B000", ZEv.ack "<E077", ZEv.follow ":FINAL"]
    (by decide)

end Vrctl
